import Mathlib

/-
Verification of the Misskey emoji uploader core (misskey_emoji_uploader.py)
against its natural-language specification.

Shallow embedding notes:
* Remote JSON responses are modelled by `Response` (a success body carrying an
  id, or a structured error carrying its `code` string).
* The retry-on-rate-limit `while True` loop shared by `create_drive_folder`
  and `drive_upload_file` is modelled by `rateLimitLoop` over the finite list
  of responses the server would give to successive attempts; an exhausted list
  models the loop still spinning (the source loop has no retry bound).
* The drive is a list of folders plus a fresh-id counter; folder creation
  appends (so listing order is creation order, matching a server that lists
  in insertion order).
* `start` models the per-task loop of the source `start` function, given the
  already-built emoji-name index and the per-task server behaviour; a raised
  RuntimeError is modelled by the `RunStatus.fatal` terminal state that stops
  processing of the remaining tasks.
* Python's `str.lower` is modelled on its ASCII fragment (`pyLower`), which
  covers every character the claims exercise.
-/

namespace Misskey

/-! ## Name derivation (source line: `emoji_path.stem.split(".")[0].lower().replace("-", "_")`) -/

/-- ASCII fragment of Python `str.lower`, applied characterwise. -/
def pyLower (c : Char) : Char :=
  if 'A' ≤ c ∧ c ≤ 'Z' then Char.ofNat (c.toNat + 32) else c

/-- Characterwise effect of `.lower().replace("-", "_")`. -/
def emojiChar (c : Char) : Char :=
  if pyLower c = '-' then '_' else pyLower c

/-- Index of the last `'.'` in a character list (Python `name.rfind('.')`,
with `none` for "not found"). -/
def lastDotIdx : List Char → Option Nat
  | [] => none
  | c :: cs =>
    match lastDotIdx cs with
    | some j => some (j + 1)
    | none => if c = '.' then some 0 else none

/-- CPython `PurePath.stem` on a base name: drop the last suffix, where the
suffix is `name[i:]` for `i = name.rfind('.')` only when `0 < i < len - 1`. -/
def pyStemL (s : List Char) : List Char :=
  match lastDotIdx s with
  | none => s
  | some i => if 0 < i ∧ i < s.length - 1 then s.take i else s

/-- Python `split(".")[0]`: the longest dot-free leading run. -/
def firstDotPart (s : List Char) : List Char :=
  s.takeWhile (fun c => c != '.')

/-- `emoji_path.stem.split(".")[0].lower().replace("-", "_")` on char lists. -/
def deriveL (s : List Char) : List Char :=
  (firstDotPart (pyStemL s)).map emojiChar

/-- Emoji-name derivation from a file's base name, as the source computes it. -/
def derive (s : String) : String :=
  ⟨deriveL s.data⟩

/-- The spec's description of derivation: keep only the portion of the base
name before the first `'.'`, lower-case it, replace every `'-'` with `'_'`. -/
def specDeriveL (s : List Char) : List Char :=
  (firstDotPart s).map emojiChar

/-- String form of `specDeriveL`. -/
def specDerive (s : String) : String :=
  ⟨specDeriveL s.data⟩

/-! ## Rate-limited request executor (`while True` loops at lines 205-225 and 279-302) -/

/-- Seconds slept on each rate-limit response (source constant). -/
def RATE_LIMIT_WAIT : Nat := 60

/-- One parsed server response: a success body (carrying the created id) or a
structured error with its `code` field. -/
inductive Response where
  | success (id : Nat)
  | error (code : String)
deriving DecidableEq, Repr

/-- Terminal result of one logical request after the retry loop. -/
inductive ReqResult where
  | ok (id : Nat)
  | err (code : String)
deriving DecidableEq, Repr

/-- The shared retry loop of `create_drive_folder` and `drive_upload_file`:
take responses for successive attempts; on `RATE_LIMIT_EXCEEDED` sleep
`RATE_LIMIT_WAIT` and retry, on any other error raise it, on success return.
Yields `(result?, attempts, sleeps)`; `result? = none` means the response list
was exhausted while still rate limited (the unbounded loop is still going). -/
def rateLimitLoop : List Response → Option ReqResult × Nat × Nat
  | [] => (none, 0, 0)
  | Response.success i :: _ => (some (ReqResult.ok i), 1, 0)
  | Response.error c :: rest =>
    if c = "RATE_LIMIT_EXCEEDED" then
      ((rateLimitLoop rest).1, (rateLimitLoop rest).2.1 + 1, (rateLimitLoop rest).2.2 + 1)
    else (some (ReqResult.err c), 1, 0)

/-! ## Drive model and folder path resolver (`create_drive_folder_path`, lines 228-259) -/

/-- One remote drive folder. -/
structure Folder where
  id : Nat
  name : String
  parent : Option Nat
deriving DecidableEq, Repr

/-- Remote drive state: folders in listing order, plus the next fresh id. -/
structure Drive where
  folders : List Folder
  nextId : Nat
deriving DecidableEq, Repr

/-- `drive/folders` request: list the folders under a parent (root = `none`),
in the server's listing order. -/
def drive_get_folders (d : Drive) (parent : Option Nat) : List Folder :=
  d.folders.filter (fun f => f.parent == parent)

/-- `drive/folders/show` request: fetch a folder record by id. -/
def drive_show_folders (d : Drive) : Option Nat → Option Folder
  | none => none
  | some i => d.folders.find? (fun f => f.id == i)

/-- The folder record a create request allocates: a fresh id under the given
parent. -/
def newFolder (d : Drive) (name : String) (parent : Option Nat) : Folder :=
  ⟨d.nextId, name, parent⟩

/-- The drive after a create request: the record appended to the listing, the
id counter advanced. -/
def createdDrive (d : Drive) (name : String) (parent : Option Nat) : Drive :=
  ⟨d.folders ++ [newFolder d name parent], d.nextId + 1⟩

/-- `drive/folders/create` request (post retry loop): create a folder with a
fresh id under the given parent, returning its record and the new drive. -/
def create_drive_folder (d : Drive) (name : String) (parent : Option Nat) :
    Folder × Drive :=
  (newFolder d name parent, createdDrive d name parent)

/-- Result of walking the path segments: final drive, final `parent_id`, the
last folder created (the source's `folder_data` variable, `none` if the create
branch was never taken), and counts of create/list requests issued. -/
structure ResolveOut where
  drive : Drive
  parentId : Option Nat
  lastCreated : Option Folder
  creates : Nat
  lists : Nat
deriving DecidableEq, Repr

/-- The `for folder in path_split` loop of `create_drive_folder_path`:
list the children of `parent`, linear-scan for the segment name, adopt the
first match, otherwise create the folder and adopt it. -/
def resolveLoop : Drive → Option Nat → List String → ResolveOut
  | d, parent, [] => ⟨d, parent, none, 0, 0⟩
  | d, parent, seg :: rest =>
    match (drive_get_folders d parent).find? (fun f => f.name == seg) with
    | some f =>
      let st := resolveLoop d (some f.id) rest
      ⟨st.drive, st.parentId, st.lastCreated, st.creates, st.lists + 1⟩
    | none =>
      let fd := (create_drive_folder d seg parent).1
      let st := resolveLoop (create_drive_folder d seg parent).2 (some fd.id) rest
      ⟨st.drive, st.parentId, some (st.lastCreated.getD fd), st.creates + 1, st.lists + 1⟩

/-- Python `path.split("/")` on a character list (single-character separator
semantics: `"" ↦ [""]`, adjacent separators yield empty segments). -/
def splitSlash : List Char → List (List Char)
  | [] => [[]]
  | c :: rest =>
    let r := splitSlash rest
    if c = '/' then [] :: r
    else
      match r with
      | [] => [[c]]
      | x :: xs => (c :: x) :: xs

/-- The slash-separated segments of a drive path. -/
def pathSegs (path : String) : List String :=
  (splitSlash path.data).map (fun cs => String.mk cs)

/-- Result of `create_drive_folder_path`: the returned folder record, the
final drive, and counts of create/list/show requests issued. -/
structure PathResult where
  folderData : Option Folder
  drive : Drive
  creates : Nat
  lists : Nat
  shows : Nat
deriving DecidableEq, Repr

/-- `create_drive_folder_path(path)`: walk the segments; if the create branch
was never taken, fetch the terminal folder's record with one show request. -/
def create_drive_folder_path (d : Drive) (path : String) : PathResult :=
  let st := resolveLoop d none (pathSegs path)
  match st.lastCreated with
  | some fd => ⟨some fd, st.drive, st.creates, st.lists, 0⟩
  | none => ⟨drive_show_folders st.drive st.parentId, st.drive, st.creates, st.lists, 1⟩

/-- A parent pointer is valid for a drive: absent, or a previously allocated id. -/
def POk (d : Drive) (p : Option Nat) : Prop :=
  ∀ j, p = some j → j < d.nextId

/-- Well-formed drive: every folder's id and parent were allocated before
`nextId`, and ids are pairwise distinct. -/
def Drive.WF (d : Drive) : Prop :=
  (∀ f ∈ d.folders, f.id < d.nextId ∧ ∀ q, f.parent = some q → q < d.nextId) ∧
  (d.folders.map Folder.id).Nodup

/-- The second drive extends the first: the folder listing only grew at the
end and the id counter only advanced. -/
def DExt (d d' : Drive) : Prop :=
  (∃ tail, d'.folders = d.folders ++ tail) ∧ d.nextId ≤ d'.nextId

/-! ## Upload orchestrator (`start`, lines 308-385, and `emoji_add`, lines 124-155) -/

/-- Per-task server behaviour: the response stream consumed by the
`drive_upload_file` retry loop, and the single response to the one
`admin/emoji/add` request (`emoji_add` has no retry loop). -/
structure TaskBehavior where
  uploadResponses : List Response
  createResponse : Response
deriving DecidableEq, Repr

/-- Terminal state of one task in the source loop. -/
inductive Outcome where
  | created (emojiId : Nat)
  | skippedPre
  | skippedDupCreate
  | fatalUpload (code : String)
  | fatalCreate (code : String)
  | hungUpload
deriving DecidableEq, Repr

/-- What one task did: its outcome and the requests it issued. -/
structure TaskReport where
  name : String
  derivedName : String
  outcome : Outcome
  uploadName : Option String
  uploadAttempts : Nat
  uploadSleeps : Nat
  createAttempts : Nat
  createName : Option String
  createFileId : Option Nat
deriving DecidableEq, Repr

/-- How the run ended: normal completion, a raised RuntimeError carrying the
remote error code, or an unbounded rate-limit loop still spinning. -/
inductive RunStatus where
  | done
  | fatal (code : String)
  | hung
deriving DecidableEq, Repr

/-- Observable state of a run: reports of the tasks that were processed (in
order), the two counters, and how the run ended. -/
structure RunState where
  reports : List TaskReport
  succ : Nat
  skip : Nat
  status : RunStatus
deriving DecidableEq, Repr

/-- One iteration of the source `for emoji_path in emoji_path_list` loop:
derive the name, pre-check the index, upload through the retry loop with the
file's original base name, then issue one emoji-creation request with the
derived name. -/
def processTask (existing : List String) (name : String) (beh : TaskBehavior) :
    TaskReport :=
  let dname := derive name
  if existing.contains dname then
    ⟨name, dname, Outcome.skippedPre, none, 0, 0, 0, none, none⟩
  else
    match rateLimitLoop beh.uploadResponses with
    | (none, a, s) => ⟨name, dname, Outcome.hungUpload, some name, a, s, 0, none, none⟩
    | (some (ReqResult.err c), a, s) =>
      ⟨name, dname, Outcome.fatalUpload c, some name, a, s, 0, none, none⟩
    | (some (ReqResult.ok fid), a, s) =>
      match beh.createResponse with
      | Response.success eid =>
        ⟨name, dname, Outcome.created eid, some name, a, s, 1, some dname, some fid⟩
      | Response.error c =>
        if c = "DUPLICATE_NAME" then
          ⟨name, dname, Outcome.skippedDupCreate, some name, a, s, 1, some dname, some fid⟩
        else
          ⟨name, dname, Outcome.fatalCreate c, some name, a, s, 1, some dname, some fid⟩

/-- Fold one task report into the run: skips and successes bump their counter
and continue; a fatal error or a hung upload ends the run at this task,
discarding the rest of the list (the source raises / never returns). -/
def stepCombine (r : TaskReport) (st : RunState) : RunState :=
  match r.outcome with
  | Outcome.created _ => ⟨r :: st.reports, st.succ + 1, st.skip, st.status⟩
  | Outcome.skippedPre => ⟨r :: st.reports, st.succ, st.skip + 1, st.status⟩
  | Outcome.skippedDupCreate => ⟨r :: st.reports, st.succ, st.skip + 1, st.status⟩
  | Outcome.fatalUpload c => ⟨[r], 0, 0, RunStatus.fatal c⟩
  | Outcome.fatalCreate c => ⟨[r], 0, 0, RunStatus.fatal c⟩
  | Outcome.hungUpload => ⟨[r], 0, 0, RunStatus.hung⟩

/-- The task loop of `start`, given the pre-built emoji-name index and each
task's (base name, server behaviour). -/
def start (existing : List String) : List (String × TaskBehavior) → RunState
  | [] => ⟨[], 0, 0, RunStatus.done⟩
  | (name, beh) :: rest => stepCombine (processTask existing name beh) (start existing rest)

/-- True on reports whose outcome is `created`. -/
def isCreated (r : TaskReport) : Bool :=
  match r.outcome with
  | Outcome.created _ => true
  | _ => false

/-- True on reports whose outcome is one of the two skip variants. -/
def isSkipped (r : TaskReport) : Bool :=
  match r.outcome with
  | Outcome.skippedPre => true
  | Outcome.skippedDupCreate => true
  | _ => false

/-- Number of `created` outcomes among the reports. -/
def countCreated (rs : List TaskReport) : Nat :=
  rs.countP isCreated

/-- Number of skip outcomes among the reports. -/
def countSkipped (rs : List TaskReport) : Nat :=
  rs.countP isSkipped

/-! ## Theorems -/

/-- Cutting a character list at any occurrence of a dot does not change the
run before the first dot. -/
theorem firstDotPart_append_dot (a t : List Char) :
    firstDotPart (a ++ '.' :: t) = firstDotPart a := by
  induction a with
  | nil => simp [firstDotPart, List.takeWhile_cons]
  | cons c a ih =>
    by_cases h : c = '.'
    · subst h
      simp [firstDotPart, List.takeWhile_cons]
    · simp only [firstDotPart, List.cons_append, List.takeWhile_cons] at *
      simp only [bne_iff_ne, ne_eq, h, not_false_eq_true, if_true] at *
      rw [ih]

/-- `lastDotIdx` really points at a dot: the list splits there. -/
theorem lastDotIdx_decomp (s : List Char) (i : Nat) (h : lastDotIdx s = some i) :
    s = s.take i ++ '.' :: s.drop (i + 1) := by
  induction s generalizing i with
  | nil => simp [lastDotIdx] at h
  | cons c cs ih =>
    rw [lastDotIdx] at h
    cases hcs : lastDotIdx cs with
    | some j =>
      rw [hcs] at h
      cases h
      simpa [List.take, List.drop] using congrArg (c :: ·) (ih j hcs)
    | none =>
      rw [hcs] at h
      by_cases hc : c = '.'
      · simp [hc] at h
        cases h
        simp [hc]
      · simp [hc] at h

/-- Dropping the Python `stem` suffix does not change the part of the base
name before the first dot. -/
theorem firstDotPart_pyStem (s : List Char) :
    firstDotPart (pyStemL s) = firstDotPart s := by
  cases h : lastDotIdx s with
  | none => unfold pyStemL; simp only [h]
  | some i =>
    unfold pyStemL
    simp only [h]
    by_cases hc : 0 < i ∧ i < s.length - 1
    · rw [if_pos hc]
      conv_rhs => rw [lastDotIdx_decomp s i h]
      rw [firstDotPart_append_dot]
    · simp [hc]

/-- C3: emoji-name derivation is a pure function of the base name that keeps
only the portion before the first dot, lower-cases it, and turns every hyphen
into an underscore; in particular it sends "Foo-Bar.png" to "foo_bar" and
"a.b.c.png" to "a". -/
theorem c3 :
    (∀ s : String, derive s = specDerive s) ∧
    derive "Foo-Bar.png" = "foo_bar" ∧ derive "a.b.c.png" = "a" := by
  refine ⟨fun s => ?_, by decide, by decide⟩
  unfold derive specDerive deriveL specDeriveL
  rw [firstDotPart_pyStem]

/-- C5: the retry loop of the folder-create and file-upload requests returns
the parsed body at once on success, fails at once propagating any error that
is not a rate limit, and on a rate limit sleeps the fixed 60-unit interval
once and retries the same request, with no bound on the number of retries:
any finite burst of rate limits followed by a success still succeeds, with
one backoff sleep per rate-limited attempt. -/
theorem c5 :
    RATE_LIMIT_WAIT = 60 ∧
    (∀ i rest, rateLimitLoop (Response.success i :: rest) =
      (some (ReqResult.ok i), 1, 0)) ∧
    (∀ c rest, c ≠ "RATE_LIMIT_EXCEEDED" →
      rateLimitLoop (Response.error c :: rest) = (some (ReqResult.err c), 1, 0)) ∧
    (∀ rest, rateLimitLoop (Response.error "RATE_LIMIT_EXCEEDED" :: rest) =
      ((rateLimitLoop rest).1, (rateLimitLoop rest).2.1 + 1,
        (rateLimitLoop rest).2.2 + 1)) ∧
    (∀ n i, rateLimitLoop (List.replicate n (Response.error "RATE_LIMIT_EXCEEDED") ++
      [Response.success i]) = (some (ReqResult.ok i), n + 1, n)) := by
  refine ⟨rfl, fun i rest => rfl, fun c rest h => by rw [rateLimitLoop]; simp [h],
    fun rest => by rw [rateLimitLoop]; simp, fun n i => ?_⟩
  induction n with
  | zero => rfl
  | succ n ih => rw [List.replicate_succ, List.cons_append, rateLimitLoop]; simp [ih]

/-- Witness for C5 at a concrete non-rate-limit error. -/
theorem c5_witness :
    rateLimitLoop [Response.error "ACCESS_DENIED"] =
      (some (ReqResult.err "ACCESS_DENIED"), 1, 0) :=
  c5.2.2.1 "ACCESS_DENIED" [] (by decide)

/-- C9: a task whose derived name is already in the emoji-name index is
skipped before any request: its report shows the skip outcome with zero
upload and zero creation requests, the skip counter goes up by one, and the
rest of the run is unaffected. -/
theorem c9 (existing : List String) (name : String) (beh : TaskBehavior)
    (rest : List (String × TaskBehavior))
    (h : existing.contains (derive name) = true) :
    processTask existing name beh =
      ⟨name, derive name, Outcome.skippedPre, none, 0, 0, 0, none, none⟩ ∧
    start existing ((name, beh) :: rest) =
      ⟨processTask existing name beh :: (start existing rest).reports,
        (start existing rest).succ, (start existing rest).skip + 1,
        (start existing rest).status⟩ := by
  have h' : derive name ∈ existing := by simpa using h
  have hp : processTask existing name beh =
      ⟨name, derive name, Outcome.skippedPre, none, 0, 0, 0, none, none⟩ := by
    unfold processTask
    simp [h']
  exact ⟨hp, by rw [start, hp]; rfl⟩

/-- Witness for C9: one task whose name is pre-registered. -/
theorem c9_witness :
    processTask ["cat"] "cat.png" ⟨[], Response.success 0⟩ =
      ⟨"cat.png", derive "cat.png", Outcome.skippedPre, none, 0, 0, 0, none, none⟩ ∧
    start ["cat"] [("cat.png", ⟨[], Response.success 0⟩)] =
      ⟨processTask ["cat"] "cat.png" ⟨[], Response.success 0⟩ ::
        (start ["cat"] []).reports, (start ["cat"] []).succ,
        (start ["cat"] []).skip + 1, (start ["cat"] []).status⟩ :=
  c9 ["cat"] "cat.png" ⟨[], Response.success 0⟩ [] (by decide)

/-- C10: for a task that passes the duplicate pre-check, the upload request
carries the file's original base name unchanged, any emoji-creation request
carries the derived name, and the two differ whenever derivation changed the
name. -/
theorem c10 (existing : List String) (name : String) (beh : TaskBehavior)
    (h : existing.contains (derive name) = false) :
    (processTask existing name beh).uploadName = some name ∧
    (∀ cn, (processTask existing name beh).createName = some cn →
      cn = derive name) ∧
    (derive name ≠ name → ∀ un cn,
      (processTask existing name beh).uploadName = some un →
      (processTask existing name beh).createName = some cn → un ≠ cn) := by
  have key : (processTask existing name beh).uploadName = some name ∧
      ((processTask existing name beh).createName = none ∨
        (processTask existing name beh).createName = some (derive name)) := by
    unfold processTask
    simp only [h, Bool.false_eq_true, if_false]
    cases hr : rateLimitLoop beh.uploadResponses with
    | mk ro pair =>
      cases pair with
      | mk a s =>
        cases ro with
        | none => simp
        | some r =>
          cases r with
          | ok fid =>
            cases beh.createResponse with
            | success eid => simp
            | error c =>
              by_cases hc : c = "DUPLICATE_NAME" <;> simp [hc]
          | err c => simp
  refine ⟨key.1, fun cn hcn => ?_, fun hne un cn hun hcn => ?_⟩
  · rcases key.2 with hnone | hsome
    · rw [hnone] at hcn; cases hcn
    · rw [hsome] at hcn; cases hcn; rfl
  · rcases key.2 with hnone | hsome
    · rw [hnone] at hcn; cases hcn
    · rw [key.1] at hun
      rw [hsome] at hcn
      cases hun; cases hcn
      exact fun heq => hne heq.symm

/-- Witness for C10: a name that derivation changes. -/
theorem c10_witness :
    (processTask [] "Foo-Bar.png" ⟨[Response.success 1], Response.success 2⟩).uploadName =
      some "Foo-Bar.png" ∧ ("Foo-Bar.png" : String) ≠ "foo_bar" :=
  ⟨(c10 [] "Foo-Bar.png" ⟨[Response.success 1], Response.success 2⟩ (by decide)).1,
    (c10 [] "Foo-Bar.png" ⟨[Response.success 1], Response.success 2⟩ (by decide)).2.2
      (by decide) "Foo-Bar.png" "foo_bar" (by decide) (by decide)⟩

/-- C6: a task that misses the index but gets a duplicate-name response from
emoji creation ends as the create-time skip: its report shows the duplicate
skip outcome, the skip counter goes up by one, no fatal abort arises from it,
and the remaining tasks are still processed. -/
theorem c6 (existing : List String) (name : String) (beh : TaskBehavior)
    (rest : List (String × TaskBehavior)) (fid a s : Nat)
    (hmiss : existing.contains (derive name) = false)
    (hup : rateLimitLoop beh.uploadResponses = (some (ReqResult.ok fid), a, s))
    (hcr : beh.createResponse = Response.error "DUPLICATE_NAME") :
    (processTask existing name beh).outcome = Outcome.skippedDupCreate ∧
    start existing ((name, beh) :: rest) =
      ⟨processTask existing name beh :: (start existing rest).reports,
        (start existing rest).succ, (start existing rest).skip + 1,
        (start existing rest).status⟩ := by
  have hm' : derive name ∉ existing := by simpa using hmiss
  have hp : processTask existing name beh =
      ⟨name, derive name, Outcome.skippedDupCreate, some name, a, s, 1,
        some (derive name), some fid⟩ := by
    unfold processTask
    simp [hm', hup, hcr]
  exact ⟨by rw [hp], by rw [start, hp]; rfl⟩

/-- Witness for C6: upload succeeds, creation reports a duplicate. -/
theorem c6_witness :
    (processTask [] "cat.png"
      ⟨[Response.success 5], Response.error "DUPLICATE_NAME"⟩).outcome =
      Outcome.skippedDupCreate ∧
    start [] [("cat.png", ⟨[Response.success 5], Response.error "DUPLICATE_NAME"⟩)] =
      ⟨processTask [] "cat.png"
          ⟨[Response.success 5], Response.error "DUPLICATE_NAME"⟩ ::
          (start [] []).reports, (start [] []).succ, (start [] []).skip + 1,
        (start [] []).status⟩ :=
  c6 [] "cat.png" ⟨[Response.success 5], Response.error "DUPLICATE_NAME"⟩ [] 5 1 0
    (by decide) (by decide) (by decide)

/-- Counterexample to C2: a task whose single emoji-creation request returns
a rate-limit signal is not retried and does not end as Created: the run
aborts fatally with that very rate-limit payload after exactly one creation
attempt, because `emoji_add` is not wrapped in the retry loop. -/
theorem c2_counterexample :
    (start [] [("cat.png",
      ⟨[Response.success 5], Response.error "RATE_LIMIT_EXCEEDED"⟩)]).status =
      RunStatus.fatal "RATE_LIMIT_EXCEEDED" ∧
    (start [] [("cat.png",
      ⟨[Response.success 5], Response.error "RATE_LIMIT_EXCEEDED"⟩)]).succ = 0 ∧
    (processTask [] "cat.png"
      ⟨[Response.success 5], Response.error "RATE_LIMIT_EXCEEDED"⟩).createAttempts = 1 := by
  decide

/-- C2 amended: the engine issues exactly one emoji-creation attempt per
task; a rate-limit response to emoji creation is surfaced to the caller as a
fatal error that aborts the run (the retry-with-backoff behaviour applies
only to the folder-creation and file-upload requests). -/
theorem c2_amended (existing : List String) (name : String) (beh : TaskBehavior)
    (rest : List (String × TaskBehavior)) (fid a s : Nat)
    (hmiss : existing.contains (derive name) = false)
    (hup : rateLimitLoop beh.uploadResponses = (some (ReqResult.ok fid), a, s))
    (hcr : beh.createResponse = Response.error "RATE_LIMIT_EXCEEDED") :
    (processTask existing name beh).createAttempts = 1 ∧
    start existing ((name, beh) :: rest) =
      ⟨[processTask existing name beh], 0, 0,
        RunStatus.fatal "RATE_LIMIT_EXCEEDED"⟩ := by
  have hm' : derive name ∉ existing := by simpa using hmiss
  have hp : processTask existing name beh =
      ⟨name, derive name, Outcome.fatalCreate "RATE_LIMIT_EXCEEDED", some name,
        a, s, 1, some (derive name), some fid⟩ := by
    unfold processTask
    simp [hm', hup, hcr]
  exact ⟨by rw [hp], by rw [start, hp]; rfl⟩

/-- C4: the success counter always equals the number of Created outcomes and
the skip counter the number of skip outcomes, so each non-failed task bumps
exactly one of them exactly once; their sum never exceeds the task count, and
equals it exactly when the run ends normally. -/
theorem c4 (existing : List String) (tasks : List (String × TaskBehavior)) :
    (start existing tasks).succ = countCreated (start existing tasks).reports ∧
    (start existing tasks).skip = countSkipped (start existing tasks).reports ∧
    (start existing tasks).succ + (start existing tasks).skip ≤ tasks.length ∧
    ((start existing tasks).status = RunStatus.done →
      (start existing tasks).succ + (start existing tasks).skip = tasks.length) := by
  induction tasks with
  | nil => simp [start, countCreated, countSkipped]
  | cons t rest ih =>
    obtain ⟨name, beh⟩ := t
    obtain ⟨ih1, ih2, ih3, ih4⟩ := ih
    rw [start]
    cases ho : (processTask existing name beh).outcome with
    | created i =>
      simp only [stepCombine, ho, countCreated, countSkipped, List.countP_cons,
        isCreated, isSkipped, List.length_cons]
      rw [countCreated] at ih1
      rw [countSkipped] at ih2
      refine ⟨by simp [ih1], by simp [ih2], by omega, fun hst => ?_⟩
      have := ih4 hst
      omega
    | skippedPre =>
      simp only [stepCombine, ho, countCreated, countSkipped, List.countP_cons,
        isCreated, isSkipped, List.length_cons]
      rw [countCreated] at ih1
      rw [countSkipped] at ih2
      refine ⟨by simp [ih1], by simp [ih2], by omega, fun hst => ?_⟩
      have := ih4 hst
      omega
    | skippedDupCreate =>
      simp only [stepCombine, ho, countCreated, countSkipped, List.countP_cons,
        isCreated, isSkipped, List.length_cons]
      rw [countCreated] at ih1
      rw [countSkipped] at ih2
      refine ⟨by simp [ih1], by simp [ih2], by omega, fun hst => ?_⟩
      have := ih4 hst
      omega
    | fatalUpload c =>
      simp only [stepCombine, ho, countCreated, countSkipped, List.countP_cons,
        List.countP_nil, isCreated, isSkipped, List.length_cons]
      exact ⟨by simp, by simp, by omega, fun hst => by simp at hst⟩
    | fatalCreate c =>
      simp only [stepCombine, ho, countCreated, countSkipped, List.countP_cons,
        List.countP_nil, isCreated, isSkipped, List.length_cons]
      exact ⟨by simp, by simp, by omega, fun hst => by simp at hst⟩
    | hungUpload =>
      simp only [stepCombine, ho, countCreated, countSkipped, List.countP_cons,
        List.countP_nil, isCreated, isSkipped, List.length_cons]
      exact ⟨by simp, by simp, by omega, fun hst => by simp at hst⟩

/-- Witness for C4 on a concrete completed run. -/
theorem c4_witness :
    (start ["dog"] [("dog.png", ⟨[], Response.success 0⟩)]).succ +
      (start ["dog"] [("dog.png", ⟨[], Response.success 0⟩)]).skip =
      [("dog.png", (⟨[], Response.success 0⟩ : TaskBehavior))].length :=
  (c4 ["dog"] [("dog.png", ⟨[], Response.success 0⟩)]).2.2.2 (by decide)

/-- Appending more tasks after a cleanly completed run processes them after
the earlier reports, adding their counters and taking their final status. -/
theorem start_append_done (existing : List String)
    (pre xs : List (String × TaskBehavior))
    (h : (start existing pre).status = RunStatus.done) :
    start existing (pre ++ xs) =
      ⟨(start existing pre).reports ++ (start existing xs).reports,
        (start existing pre).succ + (start existing xs).succ,
        (start existing pre).skip + (start existing xs).skip,
        (start existing xs).status⟩ := by
  induction pre with
  | nil => simp [start]
  | cons t pre ih =>
    obtain ⟨name, beh⟩ := t
    rw [start] at h
    rw [List.cons_append, start]
    cases ho : (processTask existing name beh).outcome with
    | created i =>
      rw [stepCombine, ho] at h ⊢
      rw [ih h, start, stepCombine, ho]
      simp
      omega
    | skippedPre =>
      rw [stepCombine, ho] at h ⊢
      rw [ih h, start, stepCombine, ho]
      simp
      omega
    | skippedDupCreate =>
      rw [stepCombine, ho] at h ⊢
      rw [ih h, start, stepCombine, ho]
      simp
      omega
    | fatalUpload c => rw [stepCombine, ho] at h; cases h
    | fatalCreate c => rw [stepCombine, ho] at h; cases h
    | hungUpload => rw [stepCombine, ho] at h; cases h

/-- C7: after any tasks that completed cleanly, a task hitting a remote error
that is neither a rate limit nor a duplicate name - at the upload step or at
the creation step - aborts the run at once with that error's payload, and no
later task in the list is processed. -/
theorem c7 (existing : List String) (pre : List (String × TaskBehavior))
    (name : String) (beh : TaskBehavior) (rest : List (String × TaskBehavior))
    (c : String)
    (hdone : (start existing pre).status = RunStatus.done)
    (hmiss : existing.contains (derive name) = false)
    (hrl : c ≠ "RATE_LIMIT_EXCEEDED") (hdup : c ≠ "DUPLICATE_NAME")
    (herr : (rateLimitLoop beh.uploadResponses).1 = some (ReqResult.err c) ∨
      ((∃ fid a s, rateLimitLoop beh.uploadResponses = (some (ReqResult.ok fid), a, s)) ∧
        beh.createResponse = Response.error c)) :
    start existing (pre ++ (name, beh) :: rest) =
      ⟨(start existing pre).reports ++ [processTask existing name beh],
        (start existing pre).succ, (start existing pre).skip,
        RunStatus.fatal c⟩ := by
  have hm' : derive name ∉ existing := by simpa using hmiss
  have hbad : start existing ((name, beh) :: rest) =
      ⟨[processTask existing name beh], 0, 0, RunStatus.fatal c⟩ := by
    rcases herr with hup1 | ⟨⟨fid, a, s, hup⟩, hcr⟩
    · rcases ht : rateLimitLoop beh.uploadResponses with ⟨ro, a, s⟩
      rw [ht] at hup1
      simp only at hup1
      subst hup1
      have hp : processTask existing name beh =
          ⟨name, derive name, Outcome.fatalUpload c, some name, a, s, 0,
            none, none⟩ := by
        unfold processTask
        simp [hm', ht]
      rw [start, hp]
      rfl
    · have hp : processTask existing name beh =
          ⟨name, derive name, Outcome.fatalCreate c, some name, a, s, 1,
            some (derive name), some fid⟩ := by
        unfold processTask
        simp [hm', hup, hcr, hdup]
      rw [start, hp]
      rfl
  rw [start_append_done existing pre _ hdone, hbad]
  simp

/-- Python split never yields an empty list of parts. -/
theorem splitSlash_ne_nil (s : List Char) : splitSlash s ≠ [] := by
  cases s with
  | nil => simp [splitSlash]
  | cons c rest =>
    by_cases h : c = '/'
    · simp [splitSlash, h]
    · cases hsr : splitSlash rest with
      | nil => simp [splitSlash, h, hsr]
      | cons x xs => simp [splitSlash, h, hsr]

/-- A drive path always has at least one segment. -/
theorem pathSegs_ne_nil (path : String) : pathSegs path ≠ [] := by
  unfold pathSegs
  intro h
  exact splitSlash_ne_nil path.data (List.map_eq_nil_iff.mp h)

/-- Unfolding `resolveLoop` when the segment is found in the listing. -/
theorem resolveLoop_found (d : Drive) (parent : Option Nat) (seg : String)
    (rest : List String) (f : Folder)
    (hf : (drive_get_folders d parent).find? (fun g => g.name == seg) = some f) :
    resolveLoop d parent (seg :: rest) =
      ⟨(resolveLoop d (some f.id) rest).drive,
        (resolveLoop d (some f.id) rest).parentId,
        (resolveLoop d (some f.id) rest).lastCreated,
        (resolveLoop d (some f.id) rest).creates,
        (resolveLoop d (some f.id) rest).lists + 1⟩ := by
  simp only [resolveLoop, hf]

/-- Unfolding `resolveLoop` when the segment is absent from the listing. -/
theorem resolveLoop_create (d : Drive) (parent : Option Nat) (seg : String)
    (rest : List String)
    (hf : (drive_get_folders d parent).find? (fun g => g.name == seg) = none) :
    resolveLoop d parent (seg :: rest) =
      ⟨(resolveLoop (createdDrive d seg parent) (some d.nextId) rest).drive,
        (resolveLoop (createdDrive d seg parent) (some d.nextId) rest).parentId,
        some ((resolveLoop (createdDrive d seg parent) (some d.nextId)
          rest).lastCreated.getD (newFolder d seg parent)),
        (resolveLoop (createdDrive d seg parent) (some d.nextId) rest).creates + 1,
        (resolveLoop (createdDrive d seg parent) (some d.nextId) rest).lists + 1⟩ := by
  simp only [resolveLoop, hf, create_drive_folder, newFolder]

/-- Drive extension is reflexive. -/
theorem dext_refl (d : Drive) : DExt d d :=
  ⟨⟨[], by simp⟩, Nat.le_refl _⟩

/-- Drive extension is transitive. -/
theorem dext_trans {a b c : Drive} (h1 : DExt a b) (h2 : DExt b c) : DExt a c := by
  obtain ⟨⟨t1, ht1⟩, hn1⟩ := h1
  obtain ⟨⟨t2, ht2⟩, hn2⟩ := h2
  exact ⟨⟨t1 ++ t2, by rw [ht2, ht1, List.append_assoc]⟩, Nat.le_trans hn1 hn2⟩

/-- Creating a folder with a valid parent keeps the drive well-formed. -/
theorem createWF (d : Drive) (seg : String) (parent : Option Nat)
    (hwf : d.WF) (hp : POk d parent) : (createdDrive d seg parent).WF := by
  obtain ⟨hids, hnd⟩ := hwf
  constructor
  · intro f hf
    rw [createdDrive] at hf
    simp only [newFolder, List.mem_append, List.mem_singleton] at hf
    rcases hf with hf | rfl
    · obtain ⟨h1, h2⟩ := hids f hf
      exact ⟨by simp [createdDrive]; omega,
        fun q hq => by simp [createdDrive]; have := h2 q hq; omega⟩
    · refine ⟨by simp [createdDrive], fun q hq => ?_⟩
      have := hp q hq
      simp [createdDrive]
      omega
  · have hnew : d.nextId ∉ d.folders.map Folder.id := by
      intro hmem
      obtain ⟨f, hf, hfid⟩ := List.mem_map.mp hmem
      have := (hids f hf).1
      omega
    simp only [createdDrive, newFolder, List.map_append, List.map_cons,
      List.map_nil]
    refine hnd.append (List.nodup_singleton _) ?_
    intro a ha hb
    rw [List.mem_singleton] at hb
    subst hb
    exact hnew ha

/-- A freshly created folder has no children: nothing in the old listing can
point at the id that was only just allocated. -/
theorem childrenFresh (d : Drive) (seg : String) (parent : Option Nat)
    (hwf : d.WF) (hp : POk d parent) :
    drive_get_folders (createdDrive d seg parent) (some d.nextId) = [] := by
  rw [drive_get_folders, createdDrive, List.filter_append]
  have h1 : d.folders.filter (fun f => f.parent == some d.nextId) = [] := by
    rw [List.filter_eq_nil_iff]
    intro f hf
    obtain ⟨_, h2⟩ := hwf.1 f hf
    cases hpar : f.parent with
    | none => simp
    | some q =>
      have := h2 q hpar
      simp
      omega
  have h2 : [newFolder d seg parent].filter (fun f => f.parent == some d.nextId) = [] := by
    rw [List.filter_eq_nil_iff]
    intro f hf
    rw [List.mem_singleton] at hf
    subst hf
    rw [newFolder]
    cases hpar : parent with
    | none => simp
    | some q =>
      have := hp q hpar
      simp
      omega
  rw [h1, h2]
  rfl

/-- In a listing with pairwise distinct ids, looking a member up by its id
finds exactly that member. -/
theorem find?_id_of_mem (l : List Folder) (f : Folder) (hm : f ∈ l)
    (hn : (l.map Folder.id).Nodup) : l.find? (fun g => g.id == f.id) = some f := by
  induction l with
  | nil => cases hm
  | cons g l ih =>
    rw [List.map_cons, List.nodup_cons] at hn
    rcases List.mem_cons.mp hm with rfl | hm'
    · rw [List.find?_cons_of_pos]
      simp
    · have hgf : ¬ (g.id == f.id) = true := by
        simp only [beq_iff_eq]
        intro heq
        apply hn.1
        rw [heq]
        exact List.mem_map_of_mem Folder.id hm'
      rw [List.find?_cons_of_neg]
      · exact ih hm' hn.2
      · exact hgf

/-- The resolver walk preserves drive well-formedness, ends on a valid parent
pointer, and only ever extends the drive. -/
theorem resolve_ext (segs : List String) : ∀ (d : Drive) (parent : Option Nat),
    d.WF → POk d parent →
    (resolveLoop d parent segs).drive.WF ∧
    POk (resolveLoop d parent segs).drive (resolveLoop d parent segs).parentId ∧
    DExt d (resolveLoop d parent segs).drive := by
  induction segs with
  | nil =>
    intro d parent hwf hp
    simp only [resolveLoop]
    exact ⟨hwf, hp, dext_refl d⟩
  | cons seg rest ih =>
    intro d parent hwf hp
    cases hf : (drive_get_folders d parent).find? (fun g => g.name == seg) with
    | some f =>
      have hmem : f ∈ d.folders :=
        (List.mem_filter.mp (List.mem_of_find?_eq_some hf)).1
      have hpok : POk d (some f.id) := by
        intro j hj
        cases hj
        exact (hwf.1 f hmem).1
      obtain ⟨h1, h2, h3⟩ := ih d (some f.id) hwf hpok
      rw [resolveLoop_found d parent seg rest f hf]
      exact ⟨h1, h2, h3⟩
    | none =>
      have hwf' := createWF d seg parent hwf hp
      have hpok' : POk (createdDrive d seg parent) (some d.nextId) := by
        intro j hj
        cases hj
        simp [createdDrive]
      obtain ⟨h1, h2, h3⟩ := ih (createdDrive d seg parent) (some d.nextId) hwf' hpok'
      rw [resolveLoop_create d parent seg rest hf]
      refine ⟨h1, h2, dext_trans ?_ h3⟩
      exact ⟨⟨[newFolder d seg parent], by rw [createdDrive]⟩, by simp [createdDrive]⟩

/-- The walk issues at most one create request per segment. -/
theorem resolve_creates_le (segs : List String) : ∀ (d : Drive) (parent : Option Nat),
    (resolveLoop d parent segs).creates ≤ segs.length := by
  induction segs with
  | nil => intro d parent; simp [resolveLoop]
  | cons seg rest ih =>
    intro d parent
    cases hf : (drive_get_folders d parent).find? (fun g => g.name == seg) with
    | some f =>
      rw [resolveLoop_found d parent seg rest f hf]
      have := ih d (some f.id)
      simp only [List.length_cons]
      omega
    | none =>
      rw [resolveLoop_create d parent seg rest hf]
      have := ih (createdDrive d seg parent) (some d.nextId)
      simp only [List.length_cons]
      omega

/-- Witness for C7: an upload rejected with a hard error aborts the run. -/
theorem c7_witness :
    start [] [("cat.png",
        (⟨[Response.error "INTERNAL_ERROR"], Response.success 0⟩ : TaskBehavior))] =
      ⟨(start [] []).reports ++
          [processTask [] "cat.png" ⟨[Response.error "INTERNAL_ERROR"], Response.success 0⟩],
        (start [] []).succ, (start [] []).skip, RunStatus.fatal "INTERNAL_ERROR"⟩ :=
  c7 [] [] "cat.png" ⟨[Response.error "INTERNAL_ERROR"], Response.success 0⟩ []
    "INTERNAL_ERROR" rfl (by decide) (by decide) (by decide) (Or.inl (by decide))

/-- Witness for the amended C2. -/
theorem c2_amended_witness :
    (processTask [] "cat.png"
      ⟨[Response.success 5], Response.error "RATE_LIMIT_EXCEEDED"⟩).createAttempts = 1 ∧
    start [] [("cat.png", ⟨[Response.success 5], Response.error "RATE_LIMIT_EXCEEDED"⟩)] =
      ⟨[processTask [] "cat.png"
          ⟨[Response.success 5], Response.error "RATE_LIMIT_EXCEEDED"⟩], 0, 0,
        RunStatus.fatal "RATE_LIMIT_EXCEEDED"⟩ :=
  c2_amended [] "cat.png" ⟨[Response.success 5], Response.error "RATE_LIMIT_EXCEEDED"⟩
    [] 5 1 0 (by decide) (by decide) (by decide)

/-- A listing hit under some parent survives any growth of the drive: the
first match in the grown listing is the same folder. -/
theorem find?_get_folders_ext (d e : Drive) (parent : Option Nat)
    (pred : Folder → Bool) (f : Folder) (tail : List Folder)
    (htail : e.folders = d.folders ++ tail)
    (hf : (drive_get_folders d parent).find? pred = some f) :
    (drive_get_folders e parent).find? pred = some f := by
  rw [drive_get_folders, htail, List.filter_append, List.find?_append]
  rw [drive_get_folders] at hf
  rw [hf, Option.or_some]

/-- After a missing segment was created, any later listing of the same parent
in any extension of that drive finds the created folder first. -/
theorem find?_get_folders_created (d e : Drive) (seg : String)
    (parent : Option Nat) (tail : List Folder)
    (htail : e.folders = (createdDrive d seg parent).folders ++ tail)
    (hf : (drive_get_folders d parent).find? (fun g => g.name == seg) = none) :
    (drive_get_folders e parent).find? (fun g => g.name == seg) =
      some (newFolder d seg parent) := by
  rw [drive_get_folders, htail]
  have hun : (createdDrive d seg parent).folders =
      d.folders ++ [newFolder d seg parent] := rfl
  rw [hun, List.append_assoc, List.filter_append, List.find?_append]
  rw [drive_get_folders] at hf
  rw [hf, Option.none_or, List.filter_append]
  have hnf : List.filter (fun g => g.parent == parent) [newFolder d seg parent] =
      [newFolder d seg parent] := by
    simp [newFolder]
  rw [hnf, List.singleton_append, List.find?_cons_of_pos]
  simp [newFolder]

/-- Where the walk ends: if a create was taken, the reported record is the
folder of the last segment, the final parent pointer is its id, and it is in
the final listing; if no create was taken, the drive is untouched and the
final parent pointer is the id of a listed folder named like the last
segment. -/
theorem resolve_last (segs : List String) : ∀ (d : Drive) (parent : Option Nat),
    d.WF → POk d parent → segs ≠ [] →
    (∀ fd, (resolveLoop d parent segs).lastCreated = some fd →
      some fd.name = segs.getLast? ∧
      (resolveLoop d parent segs).parentId = some fd.id ∧
      fd ∈ (resolveLoop d parent segs).drive.folders ∧
      (resolveLoop d parent segs).creates ≠ 0) ∧
    ((resolveLoop d parent segs).lastCreated = none →
      (resolveLoop d parent segs).drive = d ∧
      (resolveLoop d parent segs).creates = 0 ∧
      ∃ f, f ∈ d.folders ∧ (resolveLoop d parent segs).parentId = some f.id ∧
        some f.name = segs.getLast?) := by
  induction segs with
  | nil => intro d parent _ _ hne; exact absurd rfl hne
  | cons seg rest ih =>
    intro d parent hwf hp _
    cases hf : (drive_get_folders d parent).find? (fun g => g.name == seg) with
    | some f =>
      have hmem : f ∈ d.folders :=
        (List.mem_filter.mp (List.mem_of_find?_eq_some hf)).1
      have hname : f.name = seg := by
        have := List.find?_some hf
        simpa using this
      have hpok : POk d (some f.id) := by
        intro j hj
        cases hj
        exact (hwf.1 f hmem).1
      rw [resolveLoop_found d parent seg rest f hf]
      cases rest with
      | nil =>
        simp only [resolveLoop]
        constructor
        · intro fd hfd
          simp at hfd
        · intro _
          exact ⟨by trivial, by trivial, f, hmem, by trivial, by simp [hname]⟩
      | cons seg2 rest2 =>
        obtain ⟨ihs, ihn⟩ := ih d (some f.id) hwf hpok (by simp)
        constructor
        · intro fd hfd
          obtain ⟨h1, h2, h3, h4⟩ := ihs fd hfd
          refine ⟨?_, h2, h3, h4⟩
          rw [List.getLast?_cons_cons]
          exact h1
        · intro hnone
          obtain ⟨h1, h2, f2, hf2m, hf2p, hf2n⟩ := ihn hnone
          refine ⟨h1, h2, f2, hf2m, hf2p, ?_⟩
          rw [List.getLast?_cons_cons]
          exact hf2n
    | none =>
      have hwf' := createWF d seg parent hwf hp
      have hpok' : POk (createdDrive d seg parent) (some d.nextId) := by
        intro j hj
        cases hj
        simp [createdDrive]
      rw [resolveLoop_create d parent seg rest hf]
      cases rest with
      | nil =>
        simp only [resolveLoop, Option.getD_none]
        constructor
        · intro fd hfd
          obtain rfl : newFolder d seg parent = fd := Option.some.inj hfd
          refine ⟨by simp [newFolder], rfl, ?_, by simp⟩
          simp [createdDrive]
        · intro hnone
          exact absurd hnone (by simp)
      | cons seg2 rest2 =>
        have hcf := childrenFresh d seg parent hwf hp
        have hf2 : (drive_get_folders (createdDrive d seg parent)
            (some d.nextId)).find? (fun g => g.name == seg2) = none := by
          rw [hcf]
          rfl
        have hsub := resolveLoop_create (createdDrive d seg parent)
          (some d.nextId) seg2 rest2 hf2
        obtain ⟨ihs, _⟩ := ih (createdDrive d seg parent) (some d.nextId)
          hwf' hpok' (by simp)
        constructor
        · intro fd hfd
          have hfd2 : (resolveLoop (createdDrive d seg parent) (some d.nextId)
              (seg2 :: rest2)).lastCreated.getD (newFolder d seg parent) = fd :=
            Option.some.inj hfd
          rw [hsub] at hfd2
          simp only [Option.getD_some] at hfd2
          have hl : (resolveLoop (createdDrive d seg parent) (some d.nextId)
              (seg2 :: rest2)).lastCreated = some fd := by
            rw [hsub]
            exact congrArg some hfd2
          obtain ⟨h1, h2, h3, _⟩ := ihs fd hl
          refine ⟨?_, h2, h3, by simp⟩
          rw [List.getLast?_cons_cons]
          exact h1
        · intro hnone
          exact absurd hnone (by simp)

/-- Walking the same segments again over the drive the first walk produced
finds every segment, creates nothing, changes nothing, and ends on the same
parent pointer. -/
theorem resolve_idem (segs : List String) : ∀ (d : Drive) (parent : Option Nat),
    d.WF → POk d parent →
    (resolveLoop (resolveLoop d parent segs).drive parent segs).creates = 0 ∧
    (resolveLoop (resolveLoop d parent segs).drive parent segs).drive =
      (resolveLoop d parent segs).drive ∧
    (resolveLoop (resolveLoop d parent segs).drive parent segs).parentId =
      (resolveLoop d parent segs).parentId := by
  induction segs with
  | nil =>
    intro d parent _ _
    simp [resolveLoop]
  | cons seg rest ih =>
    intro d parent hwf hp
    cases hf : (drive_get_folders d parent).find? (fun g => g.name == seg) with
    | some f =>
      have hmem : f ∈ d.folders :=
        (List.mem_filter.mp (List.mem_of_find?_eq_some hf)).1
      have hpok : POk d (some f.id) := by
        intro j hj
        cases hj
        exact (hwf.1 f hmem).1
      obtain ⟨hwfs, hpoks, ⟨⟨tail, htail⟩, hle⟩⟩ := resolve_ext rest d (some f.id) hwf hpok
      have hf2 := find?_get_folders_ext d (resolveLoop d (some f.id) rest).drive
        parent (fun g => g.name == seg) f tail htail hf
      simp only [resolveLoop_found d parent seg rest f hf]
      simp only [resolveLoop_found (resolveLoop d (some f.id) rest).drive
        parent seg rest f hf2]
      exact ih d (some f.id) hwf hpok
    | none =>
      have hwf' := createWF d seg parent hwf hp
      have hpok' : POk (createdDrive d seg parent) (some d.nextId) := by
        intro j hj
        cases hj
        simp [createdDrive]
      obtain ⟨hwfs, hpoks, ⟨⟨tail, htail⟩, hle⟩⟩ := resolve_ext rest
        (createdDrive d seg parent) (some d.nextId) hwf' hpok'
      have hf2 := find?_get_folders_created d
        (resolveLoop (createdDrive d seg parent) (some d.nextId) rest).drive
        seg parent tail htail hf
      simp only [resolveLoop_create d parent seg rest hf]
      simp only [resolveLoop_found (resolveLoop (createdDrive d seg parent)
        (some d.nextId) rest).drive parent seg rest (newFolder d seg parent) hf2,
        newFolder]
      exact ih (createdDrive d seg parent) (some d.nextId) hwf' hpok'

/-- C1: on a well-formed drive, the path resolver returns the record of the
folder of the last path segment; when every segment already existed (zero
create requests) it issues exactly one extra show-folder request to fetch
that record, and when anything was created it issues none. -/
theorem c1 (d : Drive) (path : String) (h : d.WF) :
    (∃ fd, (create_drive_folder_path d path).folderData = some fd ∧
      some fd.name = (pathSegs path).getLast? ∧
      fd ∈ (create_drive_folder_path d path).drive.folders) ∧
    ((create_drive_folder_path d path).creates = 0 →
      (create_drive_folder_path d path).shows = 1) ∧
    ((create_drive_folder_path d path).creates ≠ 0 →
      (create_drive_folder_path d path).shows = 0) := by
  have hp0 : POk d none := fun j hj => by cases hj
  obtain ⟨hsome, hnone⟩ := resolve_last (pathSegs path) d none h hp0 (pathSegs_ne_nil path)
  simp only [create_drive_folder_path]
  cases hl : (resolveLoop d none (pathSegs path)).lastCreated with
  | some fd =>
    obtain ⟨h1, h2, h3, h4⟩ := hsome fd hl
    exact ⟨⟨fd, rfl, h1, h3⟩, fun h0 => absurd h0 h4, fun _ => rfl⟩
  | none =>
    obtain ⟨hdr, hcr, f, hfm, hpid, hnm⟩ := hnone hl
    refine ⟨⟨f, ?_, hnm, ?_⟩, fun _ => rfl, fun hne => absurd hcr hne⟩
    · show drive_show_folders (resolveLoop d none (pathSegs path)).drive
        (resolveLoop d none (pathSegs path)).parentId = some f
      rw [hdr, hpid]
      simp only [drive_show_folders]
      exact find?_id_of_mem d.folders f hfm h.2
    · show f ∈ (resolveLoop d none (pathSegs path)).drive.folders
      rw [hdr]
      exact hfm

/-- Witness for C1: a drive already holding folder "a", resolving "a/b". -/
theorem c1_witness :
    (∃ fd, (create_drive_folder_path ⟨[⟨0, "a", none⟩], 1⟩ "a/b").folderData = some fd ∧
      some fd.name = (pathSegs "a/b").getLast? ∧
      fd ∈ (create_drive_folder_path ⟨[⟨0, "a", none⟩], 1⟩ "a/b").drive.folders) ∧
    ((create_drive_folder_path ⟨[⟨0, "a", none⟩], 1⟩ "a/b").creates = 0 →
      (create_drive_folder_path ⟨[⟨0, "a", none⟩], 1⟩ "a/b").shows = 1) ∧
    ((create_drive_folder_path ⟨[⟨0, "a", none⟩], 1⟩ "a/b").creates ≠ 0 →
      (create_drive_folder_path ⟨[⟨0, "a", none⟩], 1⟩ "a/b").shows = 0) :=
  c1 ⟨[⟨0, "a", none⟩], 1⟩ "a/b" ⟨by simp, by simp⟩

/-- C8: folder resolution is idempotent on a well-formed drive: a second
resolution of the same path over the drive the first one produced issues zero
create requests and leaves the drive unchanged; the first resolution creates
at most one folder per segment; and a segment found in the listing never
triggers a create request. -/
theorem c8 (d : Drive) (path : String) (h : d.WF) :
    (create_drive_folder_path (create_drive_folder_path d path).drive path).creates = 0 ∧
    (create_drive_folder_path (create_drive_folder_path d path).drive path).drive =
      (create_drive_folder_path d path).drive ∧
    (create_drive_folder_path d path).creates ≤ (pathSegs path).length ∧
    (∀ (e : Drive) (p : Option Nat) (seg : String) (rest : List String) (f : Folder),
      (drive_get_folders e p).find? (fun g => g.name == seg) = some f →
      (resolveLoop e p (seg :: rest)).creates =
        (resolveLoop e (some f.id) rest).creates) := by
  have hfields : ∀ (e : Drive) (q : String),
      (create_drive_folder_path e q).drive = (resolveLoop e none (pathSegs q)).drive ∧
      (create_drive_folder_path e q).creates = (resolveLoop e none (pathSegs q)).creates := by
    intro e q
    simp only [create_drive_folder_path]
    cases (resolveLoop e none (pathSegs q)).lastCreated <;> simp
  have hp0 : POk d none := fun j hj => by cases hj
  obtain ⟨hi1, hi2, hi3⟩ := resolve_idem (pathSegs path) d none h hp0
  refine ⟨?_, ?_, ?_, ?_⟩
  · rw [(hfields (create_drive_folder_path d path).drive path).2,
      (hfields d path).1]
    exact hi1
  · rw [(hfields (create_drive_folder_path d path).drive path).1,
      (hfields d path).1]
    exact hi2
  · rw [(hfields d path).2]
    exact resolve_creates_le (pathSegs path) d none
  · intro e p seg rest f hf
    simp only [resolveLoop_found e p seg rest f hf]

/-- Witness for C8 on the empty drive and path "a/b". -/
theorem c8_witness :
    (create_drive_folder_path (create_drive_folder_path ⟨[], 0⟩ "a/b").drive "a/b").creates = 0 ∧
    (create_drive_folder_path (create_drive_folder_path ⟨[], 0⟩ "a/b").drive "a/b").drive =
      (create_drive_folder_path ⟨[], 0⟩ "a/b").drive ∧
    (create_drive_folder_path ⟨[], 0⟩ "a/b").creates ≤ (pathSegs "a/b").length ∧
    (∀ (e : Drive) (p : Option Nat) (seg : String) (rest : List String) (f : Folder),
      (drive_get_folders e p).find? (fun g => g.name == seg) = some f →
      (resolveLoop e p (seg :: rest)).creates =
        (resolveLoop e (some f.id) rest).creates) :=
  c8 ⟨[], 0⟩ "a/b" ⟨by simp, by simp⟩

end Misskey
